import Mathlib

/-!
Verification of the artifact manager (`internal/artifacts/manager.go`) of
the image-factory repository.

The manager's public operations are embedded shallowly: each Go method
becomes a pure Lean function over the manager's in-memory state plus an
environment record that supplies the outcomes of external effects
(semver parsing, `os.Stat` calls, collaborator fetches launched through
the singleflight coordinator, and the `select` race between the result
channel and context cancellation).  Each function also returns the trace
of collaborator calls it issued, so claims about "zero collaborator
calls" or "no re-fetch" can be stated as facts about the trace.
-/

namespace ImageFactory

/-- Semantic version (model of `blang/semver` `Version` restricted to the
major.minor.patch core that the manager's logic depends on). -/
structure SemVer where
  major : Nat
  minor : Nat
  patch : Nat
deriving DecidableEq, Repr

/-- Model of `Version.LT` of the semver library: lexicographic on (major, minor, patch). -/
def SemVer.lt (a b : SemVer) : Bool :=
  a.major < b.major ||
    (a.major == b.major && (a.minor < b.minor ||
      (a.minor == b.minor && a.patch < b.patch)))

/-- Model of `Version.String()` of the semver library: "major.minor.patch". -/
def SemVer.str (v : SemVer) : String :=
  toString v.major ++ "." ++ toString v.minor ++ "." ++ toString v.patch

/-- Go error values, as far as the manager constructs or inspects them. -/
inductive GoError where
  /-- an error built by `fmt.Errorf` with no `%w` verb (plain message) -/
  | errorf (msg : String)
  /-- an error built by `fmt.Errorf` with a `%w` verb wrapping `inner` -/
  | wrapf (msg : String) (inner : GoError)
  /-- the `ctx.Err()` value of a done context -/
  | ctxCanceled
  /-- an opaque error produced by `os.Stat` for a path -/
  | osStat (path : String)
deriving DecidableEq, Repr

/-- The error `Get`/`GetOfficialExtensions` build when the version is below
the configured floor: `fmt.Errorf("version %s is not supported, minimum is %s", ...)`. -/
def versionTooOldErr (v minV : SemVer) : GoError :=
  .errorf ("version " ++ v.str ++ " is not supported, minimum is " ++ minV.str)

/-- Model of `filepath.Join` on two clean relative components. -/
def joinPath (a b : String) : String := a ++ "/" ++ b

/-- Model of `ExtensionRef` (name plus content digest; opaque to the manager). -/
structure ExtensionRef where
  name : String
  digest : String
deriving DecidableEq, Repr

/-- Configuration fields of `Options` that the embedded operations read. -/
structure Options where
  minVersion : SemVer
  talosVersionRecheckInterval : Int
  imageRegistry : String
deriving Repr

/-- One collaborator / effect call issued by an operation, recorded in order. -/
inductive CollabCall where
  | statCall (path : String)
  | fetchImager (tag : String)
  | fetchTalosVersions
  | fetchOfficialExtensions (tag : String)
  | fetchExtensionImage (arch : String) (ref : ExtensionRef) (path : String)
deriving DecidableEq, Repr

/-- Environment for one call to `Get`: outcomes of `semver.Parse`, of the
`os.Stat` calls, of the coordinated `fetchImager`, and which arm of the
`select` fires (`ctxDoneWins = true` models `<-ctx.Done()` winning). -/
structure GetEnv where
  parseResult : Except GoError SemVer
  stat : String → Except GoError Unit
  fetchImagerResult : Except GoError Unit
  ctxDoneWins : Bool

/-- The artifact path `filepath.Join(m.storagePath, tag, string(arch), string(kind))`. -/
def artifactPath (storagePath tag arch kind : String) : String :=
  joinPath (joinPath (joinPath storagePath tag) arch) kind

/-- Tail of `Get` (from line 124): build the path, stat it, wrap a missing
file into a "failed to find artifact" error. -/
def getFinish (storagePath tag arch kind : String) (env : GetEnv)
    (trace : List CollabCall) : Except GoError String × List CollabCall :=
  let path := artifactPath storagePath tag arch kind
  match env.stat path with
  | .error e => (.error (.wrapf "failed to find artifact" e), trace ++ [.statCall path])
  | .ok _ => (.ok path, trace ++ [.statCall path])

/-- Model of `Manager.Get`: parse the version, reject below `MinVersion`, probe the
tag directory, on a miss route `fetchImager` through the singleflight
coordinator and wait against the context, then stat the artifact file.
Faithful to the source, including line 117 returning the outer `err`
(the stat error) when the coordinated fetch fails. -/
def get (opts : Options) (storagePath : String) (env : GetEnv)
    (arch kind : String) : Except GoError String × List CollabCall :=
  match env.parseResult with
  | .error e => (.error (.wrapf "failed to parse version" e), [])
  | .ok version =>
    if version.lt opts.minVersion then
      (.error (versionTooOldErr version opts.minVersion), [])
    else
      let tag := "v" ++ version.str
      let tagPath := joinPath storagePath tag
      match env.stat tagPath with
      | .ok _ =>
        getFinish storagePath tag arch kind env [.statCall tagPath]
      | .error statErr =>
        let trace := [CollabCall.statCall tagPath, CollabCall.fetchImager tag]
        if env.ctxDoneWins then
          (.error .ctxCanceled, trace)
        else
          match env.fetchImagerResult with
          | .error _ => (.error statErr, trace)
          | .ok _ => getFinish storagePath tag arch kind env trace

/-- Modelled from the spec: the fixed installer repository name used by
`GetInstallerImageRef` (the constant `InstallerImage` is declared outside
the provided source file; §4.6 describes it only as "fixed installer
repository name"). -/
def InstallerImage : String := "installer"

/-- Model of `name.Registry.Repo`: the repository string "registry/repoName". -/
def registryRepo (registry repoName : String) : String :=
  registry ++ "/" ++ repoName

/-- Model of `name.Repository.Tag(...).String()`: "repository:tag". -/
def repoTag (repository tag : String) : String :=
  repository ++ ":" ++ tag

/-- Model of `Manager.GetInstallerImageRef`:
`m.imageRegistry.Repo(InstallerImage).Tag("v" + versionString).String()`. -/
def getInstallerImageRef (imageRegistry versionString : String) : String :=
  repoTag (registryRepo imageRegistry InstallerImage) ("v" ++ versionString)

/-- The in-memory snapshot guarded by `talosVersionsMu`:
`m.talosVersions` and `m.talosVersionsTimestamp`. -/
structure TalosState where
  versions : List SemVer
  timestamp : Int
deriving DecidableEq, Repr

/-- Environment for one call to `GetTalosVersions`: the current time read
by `time.Since`, the outcome of the coordinated `fetchTalosVersions`, the
snapshot (versions, timestamp) that a successful fetch stores (modelled
from the spec, §4.3: the fetch body is outside the provided source), and
which arm of the `select` fires. -/
structure TalosEnv where
  now : Int
  ctxDoneWins : Bool
  fetchResult : Except GoError Unit
  fetchStores : Option (List SemVer × Int)

/-- Model of `Manager.GetTalosVersions`: read the snapshot under the lock; if it is
fresh (`time.Since(timestamp) < TalosVersionRecheckInterval`) return it
with no collaborator call; otherwise route `fetchTalosVersions` through
the coordinator, wait against the context, and on success re-read the
snapshot. -/
def getTalosVersions (opts : Options) (env : TalosEnv) (st : TalosState) :
    Except GoError (List SemVer) × List CollabCall × TalosState :=
  let versions := st.versions
  let timestamp := st.timestamp
  if env.now - timestamp < opts.talosVersionRecheckInterval then
    (.ok versions, [], st)
  else
    let st' := match env.fetchResult, env.fetchStores with
      | .ok _, some (vs, ts) => ⟨vs, ts⟩
      | _, _ => st
    let trace := [CollabCall.fetchTalosVersions]
    if env.ctxDoneWins then
      (.error .ctxCanceled, trace, st')
    else
      match env.fetchResult with
      | .error e => (.error e, trace, st')
      | .ok _ => (.ok st'.versions, trace, st')

/-- The `m.officialExtensions` map, as an association list (first match wins,
like the most recent Go map assignment). -/
abbrev ExtMap := List (String × List ExtensionRef)

/-- Go map read with the `, ok` form: `extensions, ok := m.officialExtensions[tag]`. -/
def lookupTag (st : ExtMap) (tag : String) : Option (List ExtensionRef) :=
  match st with
  | [] => none
  | (t, refs) :: rest => if t == tag then some refs else lookupTag rest tag

/-- Go map read without the `, ok` form: a missing key yields the zero
value, a nil slice (`m.officialExtensions[tag]` at line 203). -/
def lookupTagD (st : ExtMap) (tag : String) : List ExtensionRef :=
  (lookupTag st tag).getD []

/-- Go map assignment `m.officialExtensions[tag] = refs`. -/
def insertTag (st : ExtMap) (tag : String) (refs : List ExtensionRef) : ExtMap :=
  (tag, refs) :: st

/-- Environment for one call to `GetOfficialExtensions`: the outcome of
`semver.ParseTolerant`, the outcome of the coordinated
`fetchOfficialExtensions`, the entry that the fetch installs into the map
for the tag (modelled from the spec, §4.4: the fetch body is outside the
provided source; on success it installs the fetched refs, on failure it
leaves no entry), and which arm of the `select` fires. -/
structure ExtEnv where
  parseResult : Except GoError SemVer
  ctxDoneWins : Bool
  fetchResult : Except GoError Unit
  fetchInstalls : Option (List ExtensionRef)

/-- Model of `Manager.GetOfficialExtensions`: parse tolerantly, reject below
`MinVersion`, look the tag up in the permanent map, on a miss route the
catalog fetch through the coordinator keyed "extensions-"+tag, wait
against the context, and on success re-read the map entry without
checking presence. -/
def getOfficialExtensions (opts : Options) (env : ExtEnv) (st : ExtMap) :
    Except GoError (List ExtensionRef) × List CollabCall × ExtMap :=
  match env.parseResult with
  | .error e => (.error (.wrapf "failed to parse version" e), [], st)
  | .ok version =>
    if version.lt opts.minVersion then
      (.error (versionTooOldErr version opts.minVersion), [], st)
    else
      let tag := "v" ++ version.str
      match lookupTag st tag with
      | some extensions => (.ok extensions, [], st)
      | none =>
        let st' := match env.fetchResult, env.fetchInstalls with
          | .ok _, some refs => insertTag st tag refs
          | _, _ => st
        let trace := [CollabCall.fetchOfficialExtensions tag]
        if env.ctxDoneWins then
          (.error .ctxCanceled, trace, st')
        else
          match env.fetchResult with
          | .error e => (.error e, trace, st')
          | .ok _ => (.ok (lookupTagD st' tag), trace, st')

/-- The tarball path
`filepath.Join(m.storagePath, string(arch)+"-"+ref.Digest+".tar")`. -/
def extensionImagePath (storagePath arch : String) (ref : ExtensionRef) : String :=
  joinPath storagePath (arch ++ "-" ++ ref.digest ++ ".tar")

/-- Environment for one call to `GetExtensionImage`: the outcome of the
`os.Stat` probe, the outcome of the coordinated `fetchExtensionImage`,
and which arm of the `select` fires. -/
structure ExtImgEnv where
  stat : String → Except GoError Unit
  ctxDoneWins : Bool
  fetchResult : Except GoError Unit

/-- Model of `Manager.GetExtensionImage`: derive the content-addressed tarball
path, probe it, on a miss route the export through the coordinator keyed
by the path itself, wait against the context, and on success return the
path without re-checking the file. -/
def getExtensionImage (storagePath : String) (env : ExtImgEnv)
    (arch : String) (ref : ExtensionRef) :
    Except GoError String × List CollabCall :=
  let tarballPath := extensionImagePath storagePath arch ref
  match env.stat tarballPath with
  | .ok _ => (.ok tarballPath, [.statCall tarballPath])
  | .error _ =>
    let trace := [CollabCall.statCall tarballPath,
      CollabCall.fetchExtensionImage arch ref tarballPath]
    if env.ctxDoneWins then
      (.error .ctxCanceled, trace)
    else
      match env.fetchResult with
      | .error e => (.error e, trace)
      | .ok _ => (.ok tarballPath, trace)

/-- The singleflight key used by `GetExtensionImage`'s `DoChan` call: the
tarball path itself. -/
def extensionImageSfKey (storagePath arch : String) (ref : ExtensionRef) : String :=
  extensionImagePath storagePath arch ref

/-- The contract of `singleflight.Group` (§4.1): a batch of concurrent
`DoChan` calls triggers one execution per distinct in-flight key, so the
number of executions is the number of distinct keys. -/
def sfExecutions (keys : List String) : Nat :=
  keys.dedup.length

/-! ## Claims -/

/-- Claim C7: `GetInstallerImageRef` is a pure, deterministic, total
formatting operation (it is a plain Lean function, so purity, determinism
and totality are intrinsic to the embedding): for every version string it
returns the configured registry host, the fixed installer repository
name, and the tag "v"+version, joined as registry/repo:tag. -/
theorem c7_getInstallerImageRef_formats (imageRegistry versionString : String) :
    getInstallerImageRef imageRegistry versionString =
      imageRegistry ++ "/" ++ InstallerImage ++ ":" ++ ("v" ++ versionString) := by
  simp [getInstallerImageRef, repoTag, registryRepo, String.append_assoc]

/-- Claim C2: for every version that parses strictly below the configured
`MinVersion`, both `Get` and `GetOfficialExtensions` return the
version-too-old error with an empty collaborator trace: no filesystem
stat and no coordinated fetch happens before the rejection, and the
extension map is untouched. -/
theorem c2_versionTooOld_no_collaborators
    (opts : Options) (storagePath : String) (genv : GetEnv) (eenv : ExtEnv)
    (st : ExtMap) (arch kind : String) (v w : SemVer)
    (hg : genv.parseResult = .ok v) (hv : v.lt opts.minVersion = true)
    (he : eenv.parseResult = .ok w) (hw : w.lt opts.minVersion = true) :
    get opts storagePath genv arch kind =
      (.error (versionTooOldErr v opts.minVersion), []) ∧
    getOfficialExtensions opts eenv st =
      (.error (versionTooOldErr w opts.minVersion), [], st) := by
  constructor
  · simp [get, hg, hv]
  · simp [getOfficialExtensions, he, hw]

/-- Witness for C2 at MinVersion 1.5.0 and requested version 1.4.9. -/
theorem c2_versionTooOld_no_collaborators_witness :
    get ⟨⟨1, 5, 0⟩, 10, "registry.test"⟩ "/store"
        ⟨.ok ⟨1, 4, 9⟩, fun _ => .ok (), .ok (), false⟩ "amd64" "installer" =
      (.error (versionTooOldErr ⟨1, 4, 9⟩ ⟨1, 5, 0⟩), []) ∧
    getOfficialExtensions ⟨⟨1, 5, 0⟩, 10, "registry.test"⟩
        ⟨.ok ⟨1, 4, 9⟩, false, .ok (), none⟩ [] =
      (.error (versionTooOldErr ⟨1, 4, 9⟩ ⟨1, 5, 0⟩), [], []) :=
  c2_versionTooOld_no_collaborators _ "/store" _ _ [] "amd64" "installer"
    ⟨1, 4, 9⟩ ⟨1, 4, 9⟩ rfl (by decide) rfl (by decide)

/-- Claim C8: if the tag directory for the parsed version exists on disk,
`Get` never returns the cancellation error, whatever the context state
(`ctxDoneWins` is arbitrary in `env`, covering a context already
cancelled at call time): the `select` on the context is only reached on a
directory-existence miss. -/
theorem c8_dir_hit_never_cancelled
    (opts : Options) (storagePath : String) (env : GetEnv)
    (arch kind : String) (v : SemVer)
    (hp : env.parseResult = .ok v)
    (hstat : env.stat (joinPath storagePath ("v" ++ v.str)) = .ok ()) :
    (get opts storagePath env arch kind).1 ≠ .error GoError.ctxCanceled := by
  simp only [get, hp]
  by_cases hv : v.lt opts.minVersion = true
  · simp [hv, versionTooOldErr]
  · simp only [Bool.not_eq_true] at hv
    simp only [hv, Bool.false_eq_true, if_false, hstat, getFinish]
    cases h : env.stat (artifactPath storagePath ("v" ++ v.str) arch kind) <;> simp

/-- Witness for C8: tag directory present, context already cancelled. -/
theorem c8_dir_hit_never_cancelled_witness :
    (get ⟨⟨1, 5, 0⟩, 10, "registry.test"⟩ "/store"
        ⟨.ok ⟨1, 6, 0⟩, fun _ => .ok (), .error (.errorf "boom"), true⟩
        "amd64" "installer").1 ≠ .error GoError.ctxCanceled :=
  c8_dir_hit_never_cancelled _ "/store" _ "amd64" "installer" ⟨1, 6, 0⟩ rfl rfl

/-- Claim C1 (counterexample to the spec's propagation rule, evaluated at
a concrete failing input): with the tag directory absent (stat error) and
the coordinated fetch failing with its own distinct error, `Get` returns
the earlier stat error, not the fetch's error — line 117 of manager.go
returns the outer `err` instead of `result.Err`. -/
theorem c1_fetch_error_not_propagated :
    (get ⟨⟨1, 5, 0⟩, 10, "registry.test"⟩ "/store"
        ⟨.ok ⟨1, 6, 0⟩, fun _ => .error (.osStat "/store/v1.6.0"),
          .error (.errorf "fetch failed"), false⟩ "amd64" "installer").1 =
      .error (.osStat "/store/v1.6.0") ∧
    GoError.osStat "/store/v1.6.0" ≠ .errorf "fetch failed" := by
  constructor
  · rfl
  · decide

/-- Claim C10: `GetExtensionImage` never builds a not-found error of its
own: every call returns the derived tarball path, or the cancellation
error (only when the context arm wins), or exactly the coordinated
export's own error — in particular, after a successful export the path is
returned without re-checking that the file exists. -/
theorem c10_no_notFound (storagePath : String) (env : ExtImgEnv)
    (arch : String) (ref : ExtensionRef) :
    (getExtensionImage storagePath env arch ref).1 =
        .ok (extensionImagePath storagePath arch ref) ∨
      (env.ctxDoneWins = true ∧
        (getExtensionImage storagePath env arch ref).1 = .error .ctxCanceled) ∨
      (∃ e, env.fetchResult = .error e ∧
        (getExtensionImage storagePath env arch ref).1 = .error e) := by
  simp only [getExtensionImage]
  cases h : env.stat (extensionImagePath storagePath arch ref) with
  | ok u => left; rfl
  | error e =>
    by_cases hctx : env.ctxDoneWins = true
    · right; left; exact ⟨hctx, by simp [hctx]⟩
    · simp only [Bool.not_eq_true] at hctx
      cases hf : env.fetchResult with
      | ok u => left; simp [hctx, hf]
      | error e2 => right; right; exact ⟨e2, rfl, by simp [hctx, hf]⟩

/-- Claim C3: when the stored snapshot is younger than the recheck
interval, `GetTalosVersions` returns it immediately with no error, no
collaborator call and unchanged state; when the interval has elapsed, the
call routes exactly one refresh through the coordinator. -/
theorem c3_snapshot_freshness (opts : Options) (env : TalosEnv) (st : TalosState) :
    (env.now - st.timestamp < opts.talosVersionRecheckInterval →
      getTalosVersions opts env st = (.ok st.versions, [], st)) ∧
    (opts.talosVersionRecheckInterval ≤ env.now - st.timestamp →
      (getTalosVersions opts env st).2.1 = [CollabCall.fetchTalosVersions]) := by
  constructor
  · intro h
    simp [getTalosVersions, h]
  · intro h
    have h2 : ¬ env.now - st.timestamp < opts.talosVersionRecheckInterval :=
      not_lt.mpr h
    simp only [getTalosVersions, h2, if_false]
    cases env.ctxDoneWins <;> cases hf : env.fetchResult <;>
      cases env.fetchStores <;> simp [hf]

/-- Witness for C3: a fresh snapshot is served as-is; a stale one
triggers the refresh call. -/
theorem c3_snapshot_freshness_witness :
    getTalosVersions ⟨⟨1, 5, 0⟩, 10, "registry.test"⟩ ⟨5, false, .ok (), none⟩
        ⟨[⟨1, 6, 0⟩], 0⟩ =
      (.ok [⟨1, 6, 0⟩], [], ⟨[⟨1, 6, 0⟩], 0⟩) ∧
    (getTalosVersions ⟨⟨1, 5, 0⟩, 10, "registry.test"⟩ ⟨20, false, .ok (), none⟩
        ⟨[⟨1, 6, 0⟩], 0⟩).2.1 = [CollabCall.fetchTalosVersions] :=
  ⟨(c3_snapshot_freshness ⟨⟨1, 5, 0⟩, 10, "registry.test"⟩ ⟨5, false, .ok (), none⟩
      ⟨[⟨1, 6, 0⟩], 0⟩).1 (by decide),
   (c3_snapshot_freshness ⟨⟨1, 5, 0⟩, 10, "registry.test"⟩ ⟨20, false, .ok (), none⟩
      ⟨[⟨1, 6, 0⟩], 0⟩).2 (by decide)⟩

/-- Claim C4: once one call to `GetOfficialExtensions` for a tag has
completed successfully, every later call for the same tag returns the
cached entry with an empty collaborator trace and unchanged state, so the
catalog fetch runs at most once per tag per successful population.  The
hypothesis `hinst` is the spec-modelled collaborator contract (§4.4): a
successful `fetchOfficialExtensions` installs the fetched entry. -/
theorem c4_catalog_cached_after_success
    (opts : Options) (env1 env2 : ExtEnv) (st st1 : ExtMap)
    (v : SemVer) (exts : List ExtensionRef) (tr1 : List CollabCall)
    (hp1 : env1.parseResult = .ok v) (hp2 : env2.parseResult = .ok v)
    (hinst : env1.fetchResult = .ok () → env1.fetchInstalls.isSome = true)
    (h1 : getOfficialExtensions opts env1 st = (.ok exts, tr1, st1)) :
    getOfficialExtensions opts env2 st1 = (.ok exts, [], st1) := by
  simp only [getOfficialExtensions, hp1] at h1
  simp only [getOfficialExtensions, hp2]
  by_cases hv : v.lt opts.minVersion = true
  · simp [hv] at h1
  · simp only [Bool.not_eq_true] at hv
    simp only [hv, Bool.false_eq_true, if_false] at h1 ⊢
    cases hl : lookupTag st ("v" ++ v.str) with
    | some e =>
      simp only [hl, Prod.mk.injEq, Except.ok.injEq] at h1
      obtain ⟨he, -, hst⟩ := h1
      subst he
      subst hst
      simp [hl]
    | none =>
      simp only [hl] at h1
      cases hctx : env1.ctxDoneWins with
      | true => simp [hctx] at h1
      | false =>
        simp only [hctx, Bool.false_eq_true, if_false] at h1
        cases hf : env1.fetchResult with
        | error e => simp [hf] at h1
        | ok u =>
          cases u
          cases hi : env1.fetchInstalls with
          | none => exact absurd (hinst hf) (by simp [hi])
          | some refs =>
            simp only [hf, hi, Prod.mk.injEq, Except.ok.injEq] at h1
            obtain ⟨he, -, hst⟩ := h1
            subst he
            subst hst
            simp [insertTag, lookupTag, lookupTagD]

/-- Witness for C4: a cold fetch for v1.6.0 installs one extension; the
second call is served from the map with no collaborator call. -/
theorem c4_catalog_cached_after_success_witness :
    getOfficialExtensions ⟨⟨1, 5, 0⟩, 10, "registry.test"⟩
        ⟨.ok ⟨1, 6, 0⟩, true, .error (.errorf "down"), none⟩
        [("v1.6.0", [⟨"gvisor", "sha256:aa"⟩])] =
      (.ok [⟨"gvisor", "sha256:aa"⟩], [], [("v1.6.0", [⟨"gvisor", "sha256:aa"⟩])]) :=
  c4_catalog_cached_after_success ⟨⟨1, 5, 0⟩, 10, "registry.test"⟩
    ⟨.ok ⟨1, 6, 0⟩, false, .ok (), some [⟨"gvisor", "sha256:aa"⟩]⟩
    ⟨.ok ⟨1, 6, 0⟩, true, .error (.errorf "down"), none⟩
    [] [("v1.6.0", [⟨"gvisor", "sha256:aa"⟩])] ⟨1, 6, 0⟩
    [⟨"gvisor", "sha256:aa"⟩] [CollabCall.fetchOfficialExtensions "v1.6.0"]
    rfl rfl (fun _ => rfl) rfl

/-- Claim C9: on a cache miss, if the coordinated catalog fetch completes
with no error but installs no map entry for the tag, the post-fetch map
read (which does not check presence) yields the zero value, so
`GetOfficialExtensions` returns an empty list with no error. -/
theorem c9_nil_entry_nil_error
    (opts : Options) (env : ExtEnv) (st : ExtMap) (v : SemVer)
    (hp : env.parseResult = .ok v) (hv : v.lt opts.minVersion = false)
    (hmiss : lookupTag st ("v" ++ v.str) = none)
    (hctx : env.ctxDoneWins = false)
    (hf : env.fetchResult = .ok ()) (hi : env.fetchInstalls = none) :
    (getOfficialExtensions opts env st).1 = .ok [] := by
  simp [getOfficialExtensions, hp, hv, hmiss, hctx, hf, hi, lookupTagD]

/-- Witness for C9 on an empty map with a successful but non-installing fetch. -/
theorem c9_nil_entry_nil_error_witness :
    (getOfficialExtensions ⟨⟨1, 5, 0⟩, 10, "registry.test"⟩
        ⟨.ok ⟨1, 6, 0⟩, false, .ok (), none⟩ []).1 = .ok [] :=
  c9_nil_entry_nil_error ⟨⟨1, 5, 0⟩, 10, "registry.test"⟩
    ⟨.ok ⟨1, 6, 0⟩, false, .ok (), none⟩ [] ⟨1, 6, 0⟩
    rfl (by decide) rfl rfl rfl rfl

/-- Claim C5: `GetExtensionImage` is keyed purely by (architecture,
digest): two refs agreeing on the digest (names arbitrary) yield the same
tarball path and the same singleflight key, so a batch of two concurrent
cold calls triggers exactly one export execution; and every successful
call returns exactly the derived path storagePath/arch-digest.tar. -/
theorem c5_content_addressed (storagePath arch : String) (r1 r2 : ExtensionRef)
    (hd : r1.digest = r2.digest) :
    extensionImagePath storagePath arch r1 = extensionImagePath storagePath arch r2 ∧
    extensionImageSfKey storagePath arch r1 = extensionImageSfKey storagePath arch r2 ∧
    sfExecutions [extensionImageSfKey storagePath arch r1,
      extensionImageSfKey storagePath arch r2] = 1 ∧
    (∀ env : ExtImgEnv, ∀ p tr,
      getExtensionImage storagePath env arch r1 = (.ok p, tr) →
      p = extensionImagePath storagePath arch r1) := by
  have hpath : extensionImagePath storagePath arch r1 =
      extensionImagePath storagePath arch r2 := by
    simp [extensionImagePath, joinPath, hd]
  refine ⟨hpath, hpath, ?_, ?_⟩
  · rw [extensionImageSfKey, extensionImageSfKey, hpath, sfExecutions,
      List.dedup_cons_of_mem (List.mem_singleton.mpr rfl),
      List.dedup_cons_of_not_mem (List.not_mem_nil _), List.dedup_nil,
      List.length_singleton]
  · intro env p tr h
    simp only [getExtensionImage] at h
    cases hs : env.stat (extensionImagePath storagePath arch r1) with
    | ok u =>
      simp only [hs, Prod.mk.injEq, Except.ok.injEq] at h
      exact h.1.symm
    | error e =>
      simp only [hs] at h
      cases hctx : env.ctxDoneWins with
      | true => simp [hctx] at h
      | false =>
        simp only [hctx, Bool.false_eq_true, if_false] at h
        cases hf : env.fetchResult with
        | error e2 => simp [hf] at h
        | ok u =>
          simp only [hf, Prod.mk.injEq, Except.ok.injEq] at h
          exact h.1.symm

/-- Witness for C5: two refs with different names, same digest. -/
theorem c5_content_addressed_witness :
    extensionImagePath "/store" "amd64" ⟨"gvisor", "sha256:aa"⟩ =
      extensionImagePath "/store" "amd64" ⟨"zfs", "sha256:aa"⟩ ∧
    extensionImageSfKey "/store" "amd64" ⟨"gvisor", "sha256:aa"⟩ =
      extensionImageSfKey "/store" "amd64" ⟨"zfs", "sha256:aa"⟩ ∧
    sfExecutions [extensionImageSfKey "/store" "amd64" ⟨"gvisor", "sha256:aa"⟩,
      extensionImageSfKey "/store" "amd64" ⟨"zfs", "sha256:aa"⟩] = 1 ∧
    (∀ env : ExtImgEnv, ∀ p tr,
      getExtensionImage "/store" env "amd64" ⟨"gvisor", "sha256:aa"⟩ = (.ok p, tr) →
      p = extensionImagePath "/store" "amd64" ⟨"gvisor", "sha256:aa"⟩) :=
  c5_content_addressed "/store" "amd64" ⟨"gvisor", "sha256:aa"⟩ ⟨"zfs", "sha256:aa"⟩ rfl

/-- Claim C6: a successful `Get` returns exactly
storagePath/v(version)/(arch)/(kind); and after the tag directory exists
— pre-existing (second conjunct) or freshly fetched by a successful
coordinated fetch (third conjunct) — an absent architecture/kind file
makes `Get` fail with the "failed to find artifact" (not-found) error
wrapping the stat error. -/
theorem c6_get_result_path_and_notFound
    (opts : Options) (storagePath : String) (env : GetEnv)
    (arch kind : String) (v : SemVer)
    (hp : env.parseResult = .ok v) :
    (∀ p tr, get opts storagePath env arch kind = (.ok p, tr) →
      p = artifactPath storagePath ("v" ++ v.str) arch kind) ∧
    (v.lt opts.minVersion = false →
      env.stat (joinPath storagePath ("v" ++ v.str)) = .ok () →
      ∀ e, env.stat (artifactPath storagePath ("v" ++ v.str) arch kind) = .error e →
      (get opts storagePath env arch kind).1 =
        .error (.wrapf "failed to find artifact" e)) ∧
    (v.lt opts.minVersion = false →
      ∀ s, env.stat (joinPath storagePath ("v" ++ v.str)) = .error s →
      env.ctxDoneWins = false →
      env.fetchImagerResult = .ok () →
      ∀ e, env.stat (artifactPath storagePath ("v" ++ v.str) arch kind) = .error e →
      (get opts storagePath env arch kind).1 =
        .error (.wrapf "failed to find artifact" e)) := by
  refine ⟨?_, ?_, ?_⟩
  · intro p tr h
    simp only [get, hp] at h
    by_cases hv : v.lt opts.minVersion = true
    · simp [hv] at h
    · simp only [Bool.not_eq_true] at hv
      simp only [hv, Bool.false_eq_true, if_false] at h
      cases hs : env.stat (joinPath storagePath ("v" ++ v.str)) with
      | ok u =>
        simp only [hs, getFinish] at h
        cases ha : env.stat (artifactPath storagePath ("v" ++ v.str) arch kind) with
        | ok u2 =>
          simp only [ha, Prod.mk.injEq, Except.ok.injEq] at h
          exact h.1.symm
        | error e => simp [ha] at h
      | error statErr =>
        simp only [hs] at h
        cases hctx : env.ctxDoneWins with
        | true => simp [hctx] at h
        | false =>
          simp only [hctx, Bool.false_eq_true, if_false] at h
          cases hf : env.fetchImagerResult with
          | error e2 => simp [hf] at h
          | ok u =>
            simp only [hf, getFinish] at h
            cases ha : env.stat (artifactPath storagePath ("v" ++ v.str) arch kind) with
            | ok u2 =>
              simp only [ha, Prod.mk.injEq, Except.ok.injEq] at h
              exact h.1.symm
            | error e2 => simp [ha] at h
  · intro hv hdir e hart
    simp [get, hp, hv, hdir, getFinish, hart]
  · intro hv s hdir hctx hf e hart
    simp [get, hp, hv, hdir, hctx, hf, getFinish, hart]

/-- Witness for C6, both not-found branches: first the tag directory
v1.6.0 pre-exists but the amd64/installer file inside it does not; then
the directory is freshly fetched (stat miss, successful coordinated
fetch) and the amd64/installer file is still absent. -/
theorem c6_get_result_path_and_notFound_witness :
    (get ⟨⟨1, 5, 0⟩, 10, "registry.test"⟩ "/store"
        ⟨.ok ⟨1, 6, 0⟩,
          fun p => if p == "/store/v1.6.0" then .ok () else .error (.osStat p),
          .ok (), false⟩ "amd64" "installer").1 =
      .error (.wrapf "failed to find artifact" (.osStat "/store/v1.6.0/amd64/installer")) ∧
    (get ⟨⟨1, 5, 0⟩, 10, "registry.test"⟩ "/store"
        ⟨.ok ⟨1, 6, 0⟩, fun p => .error (.osStat p), .ok (), false⟩
        "amd64" "installer").1 =
      .error (.wrapf "failed to find artifact" (.osStat "/store/v1.6.0/amd64/installer")) :=
  ⟨(c6_get_result_path_and_notFound ⟨⟨1, 5, 0⟩, 10, "registry.test"⟩ "/store"
      ⟨.ok ⟨1, 6, 0⟩,
        fun p => if p == "/store/v1.6.0" then .ok () else .error (.osStat p),
        .ok (), false⟩ "amd64" "installer" ⟨1, 6, 0⟩ rfl).2.1
    (by decide) rfl (.osStat "/store/v1.6.0/amd64/installer") rfl,
   (c6_get_result_path_and_notFound ⟨⟨1, 5, 0⟩, 10, "registry.test"⟩ "/store"
      ⟨.ok ⟨1, 6, 0⟩, fun p => .error (.osStat p), .ok (), false⟩
      "amd64" "installer" ⟨1, 6, 0⟩ rfl).2.2
    (by decide) (.osStat "/store/v1.6.0") rfl rfl rfl
    (.osStat "/store/v1.6.0/amd64/installer") rfl⟩

end ImageFactory
